import Mathlib

/-!
Verification development for the yari document build pipeline
(`build/index.js`).  The JavaScript source is shallowly embedded:

* strings are Lean `String`s, with the handful of JavaScript string
  operations the code uses (`split(" ")`, `split(sep)`, `toLowerCase`,
  `startsWith`, `endsWith`, `includes`, `join(" ")`, first-occurrence
  `replace`) re-implemented as structurally-recursive functions over
  `List Char` so that they evaluate inside the kernel;
* the mutable cheerio document is an immutable rose tree `HNode`; the
  jQuery-style passes of the source (`addClass`/`removeClass`/
  `attr`/`removeAttr`/`remove` over a selector) become per-element
  attribute transformations mapped over the tree;
* the external collaborators (kumascript, the document store, the
  extractors, the flaw engine, ...) are fields of an `Env` record,
  so `buildDocument` is a pure function of the environment;
* JavaScript exceptions become `Except BuildErr`; the `console.error`
  output that the source emits before throwing is carried in the
  error value's `consoleLog` field;
* floating point popularity values are modelled as exact rationals,
  with `Number(x.toFixed(4))` modelled as rounding to four decimal
  digits.
-/

namespace YariBuild

/-! ## Character-list string utilities (JavaScript string semantics) -/

/-- Split a character list on the single character `' '`, exactly like
JavaScript's `String.prototype.split(" ")`: the result is never empty and
adjacent separators yield empty tokens. -/
def splitSpace : List Char → List (List Char)
  | [] => [[]]
  | c :: rest =>
    if c = ' ' then [] :: splitSpace rest
    else
      match splitSpace rest with
      | [] => [[c]]
      | t :: ts => (c :: t) :: ts

/-- Join character-list tokens with a single `' '`, like
`Array.prototype.join(" ")`. -/
def joinSpaceList : List (List Char) → List Char
  | [] => []
  | [t] => t
  | t :: t2 :: ts => t ++ ' ' :: joinSpaceList (t2 :: ts)

/-- Whitespace tokens of a string (the token list cheerio's class handling
and the source's `rel.split(" ")` operate on). -/
def wsTokens (s : String) : List String :=
  (splitSpace s.toList).map List.asString

/-- Join string tokens with a single space (`Array.prototype.join(" ")`). -/
def joinSpace (ts : List String) : String :=
  (joinSpaceList (ts.map String.toList)).asString

/-- JavaScript `String.prototype.startsWith`. -/
def strStartsWith (s p : String) : Bool :=
  p.toList.isPrefixOf s.toList

/-- JavaScript `String.prototype.endsWith`. -/
def strEndsWith (s p : String) : Bool :=
  p.toList.isSuffixOf s.toList

/-- Is `pat` a contiguous infix of `l`? -/
def listIsInfix (pat : List Char) : List Char → Bool
  | [] => pat.isEmpty
  | c :: rest => pat.isPrefixOf (c :: rest) || listIsInfix pat rest

/-- JavaScript `String.prototype.includes`. -/
def strContainsSub (s pat : String) : Bool :=
  listIsInfix pat.toList s.toList

/-- JavaScript `String.prototype.toLowerCase` (ASCII model). -/
def strToLower (s : String) : String :=
  (s.toList.map Char.toLower).asString

/-- Fuel-driven worker for splitting on a multi-character separator;
the fuel is the length of the input, so it never runs out. -/
def splitOnFuel (sep : List Char) : Nat → List Char → List (List Char)
  | _, [] => [[]]
  | 0, l => [l]
  | Nat.succ fuel, c :: rest =>
      if sep.isPrefixOf (c :: rest) then
        [] :: splitOnFuel sep fuel (List.drop (sep.length - 1) rest)
      else
        match splitOnFuel sep fuel rest with
        | [] => [[c]]
        | t :: ts => (c :: t) :: ts

/-- JavaScript `String.prototype.split(sep)` for a non-empty literal
separator (an empty separator returns the whole string, which the
source never relies on). -/
def splitOnString (s sep : String) : List String :=
  if sep.toList.isEmpty then [s]
  else (splitOnFuel sep.toList s.toList.length s.toList).map List.asString

/-- Join string pieces with a separator (`Array.prototype.join(sep)`). -/
def intercalateString (sep : String) : List String → String
  | [] => ""
  | [x] => x
  | x :: x2 :: xs => x ++ sep ++ intercalateString sep (x2 :: xs)

/-- JavaScript `String.prototype.replace(pat, rep)` with a string
pattern: replaces the first occurrence only. -/
def replaceFirst (s pat rep : String) : String :=
  match splitOnString s pat with
  | [] => s
  | [only] => only
  | first :: rest => first ++ rep ++ intercalateString pat rest

/-! ## Attribute lists (cheerio element attributes) -/

/-- Element attributes, in document order. -/
abbrev Attrs := List (String × String)

/-- `$el.attr(name)`: the value of the first attribute with this name. -/
def getAttr : Attrs → String → Option String
  | [], _ => none
  | p :: rest, name => if p.1 == name then some p.2 else getAttr rest name

/-- `$el.attr(name, v)`: overwrite an existing attribute in place, or
append a new one at the end. -/
def setAttr : Attrs → String → String → Attrs
  | [], name, v => [(name, v)]
  | p :: rest, name, v =>
      if p.1 == name then (p.1, v) :: rest else p :: setAttr rest name v

/-- The class tokens of an element (split of the `class` attribute on
whitespace). -/
def classTokens (attrs : Attrs) : List String :=
  wsTokens ((getAttr attrs "class").getD "")

/-- cheerio `hasClass`. -/
def hasClass (attrs : Attrs) (c : String) : Bool :=
  (classTokens attrs).contains c

/-- cheerio `addClass`: a no-op when the class is already present,
otherwise appended to the `class` attribute with a space. -/
def addClass (attrs : Attrs) (c : String) : Attrs :=
  if hasClass attrs c then attrs
  else
    setAttr attrs "class"
      (if ((getAttr attrs "class").getD "") == "" then c
       else ((getAttr attrs "class").getD "") ++ " " ++ c)

/-- cheerio `removeClass`: drop the token (and empty tokens) and rejoin
with single spaces. -/
def removeClass (attrs : Attrs) (c : String) : Attrs :=
  setAttr attrs "class"
    (joinSpace ((classTokens attrs).filter (fun t => !(t == "" || t == c))))

/-- `$el.removeAttr(name)`. -/
def removeAttr (attrs : Attrs) (name : String) : Attrs :=
  attrs.filter (fun p => p.1 != name)

/-! ## The HTML tree (the cheerio document) -/

/-- A parsed HTML fragment: element nodes with a tag, attributes and
children, and text nodes. -/
inductive HNode : Type where
  | elem (tag : String) (attrs : Attrs) (children : List HNode)
  | text (s : String)

/-- Apply a per-element attribute transformation to every element of a
forest (the shape of every jQuery select-then-mutate-attributes pass in
the source: the selector predicate is folded into `f`). -/
def mapElemsList (f : String → Attrs → Attrs) : List HNode → List HNode
  | [] => []
  | .text s :: rest => .text s :: mapElemsList f rest
  | .elem t a cs :: rest => .elem t (f t a) (mapElemsList f cs) :: mapElemsList f rest

/-- `mapElemsList` on a whole tree (the root element included, since a
cheerio selector can match any element of the loaded document). -/
def mapElems (f : String → Attrs → Attrs) : HNode → HNode
  | .elem t a cs => .elem t (f t a) (mapElemsList f cs)
  | .text s => .text s

/-- `$(selector).remove()` over a forest: drop every element (with its
subtree) whose tag and attributes match the predicate. -/
def removeElemsList (p : String → Attrs → Bool) : List HNode → List HNode
  | [] => []
  | .text s :: rest => .text s :: removeElemsList p rest
  | .elem t a cs :: rest =>
      if p t a then removeElemsList p rest
      else .elem t a (removeElemsList p cs) :: removeElemsList p rest

/-- `removeElemsList` below a root container (the selectors the source
removes with never match the synthetic `div#_body` root). -/
def removeElems (p : String → Attrs → Bool) : HNode → HNode
  | .elem t a cs => .elem t a (removeElemsList p cs)
  | .text s => .text s

/-- All attribute lists of a forest, one entry per element, in document
order. -/
def attrsList : List HNode → List Attrs
  | [] => []
  | .text _ :: rest => attrsList rest
  | .elem _ a cs :: rest => a :: (attrsList cs ++ attrsList rest)

/-- The tree with every attribute list erased: tags, nesting structure
and text content only. -/
def skeleton (n : HNode) : HNode :=
  mapElems (fun _ _ => []) n

/-- How many attributes named `name` occur anywhere in the forest. -/
def attrOccurrences (name : String) (l : List HNode) : Nat :=
  ((attrsList l).map (fun a => (a.filter (fun p => p.1 == name)).length)).sum

/-! ## The post-processors and inline tree passes of `build/index.js` -/

/-- `injectNoTranslate`: `$("pre").addClass("notranslate")`. -/
def noTranslateStep (tag : String) (attrs : Attrs) : Attrs :=
  if tag == "pre" then addClass attrs "notranslate" else attrs

/-- Tag every `pre` so translation tools skip it. -/
def injectNoTranslate (n : HNode) : HNode :=
  mapElems noTranslateStep n

/-- `injectLoadingLazyAttributes`:
`$("img:not([loading]), iframe:not([loading])").attr("loading", "lazy")`. -/
def loadingLazyStep (tag : String) (attrs : Attrs) : Attrs :=
  if (tag == "img" || tag == "iframe") && (getAttr attrs "loading").isNone
  then setAttr attrs "loading" "lazy" else attrs

/-- Add `loading="lazy"` to images and iframes that lack it. -/
def injectLoadingLazyAttributes (n : HNode) : HNode :=
  mapElems loadingLazyStep n

/-- Body of `postProcessExternalLinks` for one `a[href^=http]` element:
links into `https://developer.mozilla.org` are left untouched; all other
http(s) links gain the class `external` and, if not already present,
`noopener` appended to the space-separated `rel` attribute. -/
def externalLinkStep (tag : String) (attrs : Attrs) : Attrs :=
  match getAttr attrs "href" with
  | none => attrs
  | some href =>
    if tag == "a" && strStartsWith href "http" then
      if strStartsWith href "https://developer.mozilla.org" then attrs
      else
        let a1 := addClass attrs "external"
        let rel := wsTokens ((getAttr a1 "rel").getD "")
        if rel.contains "noopener" then a1
        else setAttr a1 "rel" (joinSpace (rel ++ ["noopener"]))
    else attrs

/-- Annotate external hyperlinks (`postProcessExternalLinks`). -/
def postProcessExternalLinks (n : HNode) : HNode :=
  mapElems externalLinkStep n

/-- `injectInPageCallout`: `$("div.in-page-callout")
.addClass("callout").removeClass("in-page-callout webdev")`. -/
def inPageCalloutStep (tag : String) (attrs : Attrs) : Attrs :=
  if tag == "div" && hasClass attrs "in-page-callout"
  then removeClass (removeClass (addClass attrs "callout") "in-page-callout") "webdev"
  else attrs

/-- Rewrite legacy `in-page-callout` containers to `callout`. -/
def injectInPageCallout (n : HNode) : HNode :=
  mapElems inPageCalloutStep n

/-- `injectNotecardOnWarnings`: `$("div.warning, div.note, div.blockIndicator")
.addClass("notecard").removeClass("blockIndicator")`. -/
def notecardStep (tag : String) (attrs : Attrs) : Attrs :=
  if tag == "div" &&
      (hasClass attrs "warning" || hasClass attrs "note" || hasClass attrs "blockIndicator")
  then removeClass (addClass attrs "notecard") "blockIndicator"
  else attrs

/-- Add the `notecard` class to warning/note boxes. -/
def injectNotecardOnWarnings (n : HNode) : HNode :=
  mapElems notecardStep n

/-- The inline `$("a[href]").each` pass of `buildDocument`: any http
link mentioning `fxsitecompat.com` is rewritten to the kuma issue URL. -/
def fxsitecompatStep (tag : String) (attrs : Attrs) : Attrs :=
  match getAttr attrs "href" with
  | none => attrs
  | some href =>
    if tag == "a" && strStartsWith href "http" && strContainsSub href "fxsitecompat.com"
    then setAttr attrs "href" "https://github.com/mdn/kuma/issues/7647"
    else attrs

/-- Strip every `data-flaw-src` attribute injected by the macro engine
(the `$("[data-flaw-src]").removeAttr("data-flaw-src")` pass). -/
def removeDataFlawSrc (n : HNode) : HNode :=
  mapElems (fun _ a => removeAttr a "data-flaw-src") n

/-! ## Data model -/

/-- The three flaw policies of `FLAW_LEVELS`. -/
inductive FlawLevel : Type where
  | error
  | warn
  | ignore
deriving DecidableEq, Repr

/-- Effective build options (`build-options` merged with per-call
overrides). `flawLevels` models the `options.flawLevels` map. -/
structure Options : Type where
  flawLevels : String → FlawLevel
  clearKumascriptRenderCache : Bool := false
  fixFlaws : Bool := false

/-- Per-call `documentOptions`: absent fields fall back to the global
`buildOptions` defaults. -/
structure DocumentOptions : Type where
  flawLevels : Option (String → FlawLevel) := none
  clearKumascriptRenderCache : Option Bool := none
  fixFlaws : Option Bool := none

/-- `Object.assign({}, buildOptions, documentOptions)`: the per-call
options win field-wise. -/
def mergeOptions (base : Options) (o : DocumentOptions) : Options :=
  { flawLevels := o.flawLevels.getD base.flawLevels
    clearKumascriptRenderCache := o.clearKumascriptRenderCache.getD base.clearKumascriptRenderCache
    fixFlaws := o.fixFlaws.getD base.fixFlaws }

/-- A thrown JavaScript error: its message, plus the `console` lines the
source printed before throwing (so "report, then throw" is observable). -/
structure BuildErr : Type where
  message : String
  consoleLog : List String := []
deriving DecidableEq, Repr

/-- File location of a source document on disk. -/
structure FileInfo : Type where
  folder : String
  root : String
  path : String
deriving DecidableEq, Repr

/-- A kumascript flaw object as `buildDocument` consumes it:
`name`, `error.message`, optional `filepath`, and for redirected-link
flaws the macro source and redirect info. -/
structure Flaw : Type where
  name : String
  errorMessage : String
  filepath : Option String := none
  macroSource : String := ""
  redirectCurrent : String := ""
  redirectSuggested : String := ""
deriving DecidableEq, Repr

/-- `flaw.updateFileInfo(fileInfo)` (kumascript collaborator): record the
owning document's file path on the flaw and return it. -/
def Flaw.updateFileInfo (f : Flaw) (fi : FileInfo) : Flaw :=
  { f with filepath := some fi.path }

/-- The string rendering of a flaw (JavaScript `${flaw}`), modelled as
name plus message. -/
def Flaw.display (f : Flaw) : String :=
  f.name ++ ": " ++ f.errorMessage

/-- A macro flaw as stored under `doc.flaws.macros`: the computed
`{id, fixable, suggestion, explanation}` fields merged with the original
flaw (`Object.assign`). -/
structure MacroFlaw : Type where
  id : String
  fixable : Bool
  suggestion : Option String
  explanation : String
  flaw : Flaw
deriving DecidableEq, Repr

/-- A flaw record attached by one of the external collaborator passes
(image checks, flaw injection, section flaws, BCD normalization); kept
abstract as a kind plus an explanation. -/
structure OtherFlaw : Type where
  kind : String
  explanation : String
deriving DecidableEq, Repr

/-- `doc.flaws`: macro flaws are the only kind this file writes itself;
every collaborator-written kind is collected in `others`. -/
structure DocFlaws : Type where
  macros : Option (List MacroFlaw) := none
  others : List OtherFlaw := []
deriving DecidableEq, Repr

/-- A live-sample id object from `kumascript.getLiveSampleIDs`. -/
structure SampleID : Type where
  id : String
deriving DecidableEq, Repr

/-- Result of `kumascript.buildLiveSamplePage`: the assembled page html,
or a flaw when the sample could not be built. -/
structure LiveSamplePageResult : Type where
  html : String
  flaw : Option Flaw := none
deriving DecidableEq, Repr

/-- One extracted live sample of the returned `liveSamples` list. -/
structure LiveSample : Type where
  id : String
  html : String
deriving DecidableEq, Repr

/-- A `languages.json` entry. -/
structure Lang : Type where
  native : String
deriving DecidableEq, Repr

/-- An entry of `doc.other_translations`. -/
structure Translation : Type where
  locale : String
  title : String
  native : String
deriving DecidableEq, Repr

/-- Document front-matter metadata. -/
structure Metadata : Type where
  slug : String
  title : String
  locale : String
  popularity : Option ℚ := none
  modified : Option String := none
  translationOf : Option String := none
  hash : String := ""
deriving DecidableEq, Repr

/-- A source document as the document store hands it to the builder. -/
structure SourceDocument : Type where
  url : String
  rawHTML : String
  metadata : Metadata
  fileInfo : FileInfo
  isArchive : Bool := false
  isTranslated : Bool := false
  isActive : Bool := true
  translations : Option (List Translation) := none
deriving DecidableEq, Repr

/-- The value part of a section. -/
structure SectionValue : Type where
  id : String := ""
  title : String := ""
  isH3 : Bool := false
  content : String := ""
deriving DecidableEq, Repr

/-- One typed block of the document body. -/
structure Section : Type where
  type : String
  value : SectionValue
deriving DecidableEq, Repr

/-- A flaw reported by the section extractor's side channel. -/
structure SectionFlaw : Type where
  explanation : String
deriving DecidableEq, Repr

/-- A table-of-contents entry. -/
structure TocEntry : Type where
  text : String
  id : String
deriving DecidableEq, Repr

/-- A breadcrumb parent computed by `addBreadcrumbData`. -/
structure BreadcrumbParent : Type where
  uri : String
  title : String
deriving DecidableEq, Repr

/-- `doc.source` as set by `injectSource`. -/
structure SourceInfo : Type where
  folder : String
  githubUrl : String
  lastCommitUrl : String
deriving DecidableEq, Repr

/-- One entry of the extracted BCD payload. -/
structure BCDEntry : Type where
  url : String
  data : String
deriving DecidableEq, Repr

/-- The assembled output document record. -/
structure Doc : Type where
  isArchive : Bool
  isTranslated : Bool
  isActive : Bool
  flaws : DocFlaws := {}
  title : String := ""
  mdnUrl : String := ""
  locale : String := ""
  native : String := ""
  sidebarHTML : String := ""
  body : List Section := []
  toc : List TocEntry := []
  summary : String := ""
  popularity : ℚ := 0
  modified : Option String := none
  otherTranslations : Option (List Translation) := none
  source : Option SourceInfo := none
  parents : Option (List BreadcrumbParent) := none
  pageTitle : String := ""
  noIndexing : Bool := false
deriving DecidableEq, Repr

/-- The value `buildDocument` resolves with. -/
structure BuildResult : Type where
  doc : Doc
  liveSamples : List LiveSample
  fileAttachments : List String
  bcdData : List BCDEntry
deriving DecidableEq, Repr

/-- A `kumascript.render` failure: either the distinguished
`MacroInvocationError` (the source could not be parsed at all) carrying
a location, or any other error, re-thrown as is. -/
inductive RenderErr : Type where
  | macroInvocation (filepath : String) (line : Nat) (column : Nat) (message : String)
  | other (e : BuildErr)

/-- Convert a render error to the error that propagates when nothing
catches it (`buildLiveSamplePageFromURL` has no catch). -/
def RenderErr.toBuildErr : RenderErr → BuildErr
  | .macroInvocation _ _ _ message => { message := message }
  | .other e => e

/-- The external collaborators of `build/index.js`, plus the global
`buildOptions`, bundled as one environment record.  `parse` models
`cheerio.load` on the fragment the source wraps in `div#_body`;
`codeHighlight` models the `syntax-highlight` collaborator;
`currentGitBranch` models `getCurrentGitBranch` (a process-level cache
over git state); `repositoryURL` models the `REPOSITORY_URLS` table. -/
structure Env : Type where
  urlToFolderPath : String → String
  render : String → Except RenderErr (String × List Flaw)
  getLiveSampleIDs : String → String → List SampleID
  buildLiveSamplePage : String → String → String → SampleID → LiveSamplePageResult
  findByURL : String → Option SourceDocument
  languages : String → Option Lang
  parse : String → List HNode
  buildOptions : Options
  extractSidebar : HNode → String × HNode
  checkImageReferences : HNode → Options → SourceDocument → List String × List OtherFlaw × HNode
  checkImageWidths : HNode → Options → SourceDocument → List OtherFlaw × HNode
  injectFlaws : HNode → Options → SourceDocument → Except BuildErr (List OtherFlaw × HNode)
  fixFixableFlaws : Options → SourceDocument → Except BuildErr Unit
  codeHighlight : HNode → HNode
  extractSections : HNode → List Section × List SectionFlaw
  injectSectionFlaws : List SectionFlaw → Options → List OtherFlaw
  extractSummary : List Section → String
  normalizeBCDURLs : List Section → Options → List Section × List OtherFlaw
  extractBCDData : List Section → List BCDEntry
  repositoryURL : String → String
  currentGitBranch : String → String
  breadcrumbParents : String → Option (List BreadcrumbParent)
  getPageTitle : Doc → String

/-! ## The functions of `build/index.js` -/

/-- The failure detected by `validateSlug`, if any, as a message:
empty slug, leading `/`, trailing `/`, or a double `//`. -/
def validateSlugError (slug : String) : Option String :=
  if slug == "" then some "slug is empty"
  else if strStartsWith slug "/" then some ("Slug '" ++ slug ++ "' starts with a /")
  else if strEndsWith slug "/" then some ("Slug '" ++ slug ++ "' ends with a /")
  else if strContainsSub slug "//" then some ("Slug '" ++ slug ++ "' contains a double /")
  else none

/-- `validateSlug`: throw if the slug is insane, otherwise do nothing. -/
def validateSlug (slug : String) : Except BuildErr Unit :=
  match validateSlugError slug with
  | some m => .error { message := m }
  | none => .ok ()

/-- `getGitHubURL`: the GitHub blob URL of the folder's `index.html` on
the current branch. -/
def getGitHubURL (env : Env) (root folder : String) : String :=
  "https://github.com/" ++ env.repositoryURL root ++ "/blob/"
    ++ env.currentGitBranch root ++ "/files/" ++ folder ++ "/index.html"

/-- `getLastCommitURL`: the GitHub URL of a commit hash. -/
def getLastCommitURL (env : Env) (root hash : String) : String :=
  "https://github.com/" ++ env.repositoryURL root ++ "/commit/" ++ hash

/-- `injectSource`: the `doc.source` attribution record. -/
def injectSource (env : Env) (document : SourceDocument) (metadata : Metadata) : SourceInfo :=
  { folder := document.fileInfo.folder
    githubUrl := getGitHubURL env document.fileInfo.root document.fileInfo.folder
    lastCommitUrl := getLastCommitURL env document.fileInfo.root metadata.hash }

/-- `makeTOC`: one `{text, id}` entry per titled, non-h3 prose or
browser-compatibility section (truthiness of `id`/`title` is modelled as
non-emptiness). -/
def makeTOC (doc : Doc) : List TocEntry :=
  doc.body.filterMap (fun s =>
    if (s.type == "prose" || s.type == "browser_compatibility")
        && !(s.value.id == "") && !(s.value.title == "") && !s.value.isH3
    then some { text := s.value.title, id := s.value.id }
    else none)

/-- `Number(x.toFixed(4))` on an exact rational: round to four decimal
digits. -/
def toFixed4 (q : ℚ) : ℚ :=
  (round (q * 10000) : ℚ) / 10000

/-- `metadata.popularity ? Number(metadata.popularity.toFixed(4)) : 0.0`
(an absent or zero — falsy — popularity stores `0.0`). -/
def popularityOf (metadata : Metadata) : ℚ :=
  match metadata.popularity with
  | some p => if p == 0 then 0 else toFixed4 p
  | none => 0

/-- The `console.error` lines the source prints before throwing under the
"error" macro-flaw policy: a header, then for every flaw its index/name
line and its string rendering. -/
def reportMacroFlaws (slug : String) (flaws : List Flaw) : List String :=
  ("Flaws (" ++ toString flaws.length ++ ") within " ++ slug ++ " while rendering macros:")
    :: (flaws.enum.map (fun p =>
          [toString (p.1 + 1) ++ ": " ++ p.2.name, p.2.display ++ "\n"])).flatten

/-- The "beef up" mapping of the WARN branch: computed
`{id, fixable, suggestion, explanation}` merged with the flaw itself. -/
def beefUpFlaw (document : SourceDocument) (p : Nat × Flaw) : MacroFlaw :=
  let flaw := p.2
  let fs : Bool × Option String :=
    if flaw.name == "MacroDeprecatedError" then (true, some "")
    else if flaw.name == "MacroRedirectedLinkError"
        && ((flaw.filepath.getD "") == "" || flaw.filepath == some document.fileInfo.path)
    then (true, some (replaceFirst flaw.macroSource flaw.redirectCurrent flaw.redirectSuggested))
    else (false, none)
  { id := "macro" ++ toString p.1
    fixable := fs.1
    suggestion := fs.2
    explanation := flaw.errorMessage
    flaw := flaw }

/-- Lines 290-331 of the source: with a non-empty flaw list, the ERROR
policy reports every flaw and throws, the WARN policy stores the beefed-up
flaws as `doc.flaws.macros`, and any other policy (IGNORE) stores
nothing. -/
def macroFlawPolicy (options : Options) (document : SourceDocument)
    (flaws : List Flaw) : Except BuildErr (Option (List MacroFlaw)) :=
  if flaws.length ≠ 0 then
    if options.flawLevels "macros" = FlawLevel.error then
      .error { message := "Flaw error encountered"
               consoleLog := reportMacroFlaws document.metadata.slug flaws }
    else if options.flawLevels "macros" = FlawLevel.warn then
      .ok (some (flaws.enum.map (beefUpFlaw document)))
    else .ok none
  else .ok none

/-- One iteration of the live-sample loop: a flawed sample appends its
flaw (with file info attached) to the document's flaw list and is
skipped; a good sample appends `{id: id.toLowerCase(), html}` to the
live-sample list. -/
def liveSampleStep (env : Env) (url title renderedHtml : String) (fileInfo : FileInfo)
    (acc : List Flaw × List LiveSample) (sampleIdObject : SampleID) :
    List Flaw × List LiveSample :=
  let liveSamplePage := env.buildLiveSamplePage url title renderedHtml sampleIdObject
  match liveSamplePage.flaw with
  | some flaw => (acc.1 ++ [flaw.updateFileInfo fileInfo], acc.2)
  | none => (acc.1, acc.2 ++ [{ id := strToLower sampleIdObject.id, html := liveSamplePage.html }])

/-- The whole `for (const sampleIdObject of sampleIds)` loop. -/
def liveSampleLoop (env : Env) (url title renderedHtml : String) (fileInfo : FileInfo)
    (ids : List SampleID) (acc : List Flaw × List LiveSample) :
    List Flaw × List LiveSample :=
  ids.foldl (liveSampleStep env url title renderedHtml fileInfo) acc

/-- The live-sample loop as `buildDocument` invokes it for a document:
over the document's declared sample ids, starting from the render
flaws. -/
def documentSampleLoop (env : Env) (document : SourceDocument)
    (renderedHtml : String) (flaws0 : List Flaw) : List Flaw × List LiveSample :=
  liveSampleLoop env document.url document.metadata.title renderedHtml document.fileInfo
    (env.getLiveSampleIDs document.metadata.slug document.rawHTML) (flaws0, [])

/-- Lines 240-288 of the source: an archived document uses its raw HTML
verbatim with no flaws and no samples; otherwise kumascript renders the
document (a `MacroInvocationError` is rethrown with a friendlier message
carrying the file location, any other error propagates), and the live
samples are extracted from the rendered HTML.  The kumascript render
cache reset is a side effect outside this model. -/
def renderPhase (env : Env) (document : SourceDocument) :
    Except BuildErr (String × List Flaw × List LiveSample) :=
  if document.isArchive then .ok (document.rawHTML, [], [])
  else
    match env.render document.url with
    | .error (.macroInvocation _ line column message) =>
        .error { message := "MacroInvocationError trying to parse "
                   ++ document.fileInfo.path ++ ", line " ++ toString line
                   ++ " column " ++ toString column ++ " (" ++ message ++ ")" }
    | .error (.other e) => .error e
    | .ok (renderedHtml, flaws) =>
        let r := documentSampleLoop env document renderedHtml flaws
        .ok (renderedHtml, r.1, r.2)

/-- Strip the `data-flaw-src` markers iff the macro-flaw policy is
IGNORE (lines 348-352). -/
def stripFlawSrcIfIgnored (options : Options) (t : HNode) : HNode :=
  if options.flawLevels "macros" = FlawLevel.ignore then removeDataFlawSrc t else t

/-- Lines 473-488: use the caller-supplied translation list if non-empty;
otherwise, when this document is a translation of another, look the
original up and synthesize a single en-US entry (the `"en-us"` locale
table lookup throws if the entry is missing). -/
def resolveOtherTranslations (env : Env) (document : SourceDocument) :
    Except BuildErr (List Translation) :=
  let ot := document.translations.getD []
  if ot.isEmpty then
    match document.metadata.translationOf with
    | none => .ok ot
    | some t =>
      match env.findByURL ("/en-US/docs/" ++ t) with
      | none => .ok ot
      | some translationOf =>
        match env.languages "en-us" with
        | none => .error { message := "missing locale: en-us" }
        | some lang =>
            .ok (ot ++ [{ locale := "en-US", title := translationOf.metadata.title
                          native := lang.native }])
  else .ok ot

/-- Everything `buildDocument` does after the slug has been validated:
load the rendered HTML into the tree (wrapped in `div#_body`), run the
policy-gated flaw-marker strip, the legacy-link removal, the identity
fields, the extraction and check collaborators, the inline tree passes,
the five post-processors, section/TOC/summary extraction, the BCD, the
derived fields, and assemble the output record. -/
def buildDocumentMain (env : Env) (document : SourceDocument) (options : Options)
    (renderedHtml : String) (flawsMacros : Option (List MacroFlaw))
    (liveSamples : List LiveSample) : Except BuildErr BuildResult :=
  let metadata := document.metadata
  let tree0 : HNode := .elem "div" [("id", "_body")] (env.parse renderedHtml)
  let tree1 := stripFlawSrcIfIgnored options tree0
  let tree2 := removeElems (fun t a => t == "span" && hasClass a "alllinks") tree1
  match env.languages (strToLower metadata.locale) with
  | none => .error { message := "missing locale: " ++ strToLower metadata.locale }
  | some lang =>
    let sb := env.extractSidebar tree2
    let cir := env.checkImageReferences sb.2 options document
    let fileAttachments := cir.1
    let ciw := env.checkImageWidths cir.2.2 options document
    match env.injectFlaws ciw.2 options document with
    | .error e =>
        .error { e with consoleLog :=
          ("Injecting flaws into " ++ document.fileInfo.path ++ " ("
            ++ document.url ++ ") failed.") :: e.consoleLog }
    | .ok ifr =>
      let tree7 := mapElems fxsitecompatStep ifr.2
      match env.fixFixableFlaws options document with
      | .error e => .error e
      | .ok _ =>
        let tree8 := removeElems (fun t a => t == "div" && hasClass a "hidden") tree7
        let tree9 := env.codeHighlight tree8
        let tree10 := injectNoTranslate tree9
        let tree11 := injectLoadingLazyAttributes tree10
        let tree12 := postProcessExternalLinks tree11
        let tree13 := injectInPageCallout tree12
        let tree14 := injectNotecardOnWarnings tree13
        let es := env.extractSections tree14
        let sectionFlawRecords :=
          if es.2.isEmpty then [] else env.injectSectionFlaws es.2 options
        let docMid : Doc :=
          { isArchive := document.isArchive
            isTranslated := document.isTranslated
            isActive := document.isActive
            flaws := { macros := flawsMacros
                       others := cir.2.1 ++ ciw.1 ++ ifr.1 ++ sectionFlawRecords }
            title := metadata.title
            mdnUrl := document.url
            locale := metadata.locale
            native := lang.native
            sidebarHTML := sb.1
            body := es.1 }
        let toc := makeTOC docMid
        let summary := env.extractSummary docMid.body
        let nb := env.normalizeBCDURLs docMid.body options
        let bcdData := env.extractBCDData nb.1
        match resolveOtherTranslations env document with
        | .error e => .error e
        | .ok otherTranslations =>
          let docPre : Doc :=
            { docMid with
              flaws := { macros := flawsMacros, others := docMid.flaws.others ++ nb.2 }
              body := nb.1
              toc := toc
              summary := summary
              popularity := popularityOf metadata
              modified := metadata.modified
              otherTranslations :=
                if otherTranslations.isEmpty then none else some otherTranslations
              source := some (injectSource env document metadata)
              parents := env.breadcrumbParents document.url }
          let docFinal : Doc :=
            { docPre with
              pageTitle := env.getPageTitle docPre
              noIndexing :=
                (document.isArchive && !document.isTranslated)
                  || metadata.slug == "MDN/Kitchensink"
                  || strStartsWith metadata.slug "orphaned/"
                  || strStartsWith metadata.slug "conflicting/" }
          .ok { doc := docFinal, liveSamples := liveSamples
                fileAttachments := fileAttachments, bcdData := bcdData }

/-- `buildDocument`: merge the options, check the slug/folder match,
render and extract live samples, apply the macro-flaw policy, validate
the slug, and run the main tree pipeline. -/
def buildDocument (env : Env) (document : SourceDocument)
    (documentOptions : DocumentOptions) : Except BuildErr BuildResult :=
  let options := mergeOptions env.buildOptions documentOptions
  let metadata := document.metadata
  if env.urlToFolderPath document.url ≠ document.fileInfo.folder then
    .error { message := "The document's slug (" ++ metadata.slug
               ++ ") doesn't match its disk folder name ("
               ++ document.fileInfo.folder ++ ")" }
  else
    match renderPhase env document with
    | .error e => .error e
    | .ok (renderedHtml, flaws, liveSamples) =>
      match macroFlawPolicy options document flaws with
      | .error e => .error e
      | .ok flawsMacros =>
        match validateSlug metadata.slug with
        | .error e => .error e
        | .ok _ =>
            buildDocumentMain env document options renderedHtml flawsMacros liveSamples

/-- `buildLiveSamplePageFromURL`: split the URL on `/_samples_/`, look the
document up (not found throws), scan its declared sample ids for one whose
lowercased id equals the requested id, re-render the document and build
just that sample (a flawed build throws); no match throws a
live-sample-not-found error. -/
def buildLiveSamplePageFromURL (env : Env) (url : String) : Except BuildErr String :=
  let parts := splitOnString url "/_samples_/"
  let documentURL := parts.headD ""
  let sampleID : Option String := (parts.drop 1).head?
  match env.findByURL documentURL with
  | none => .error { message := "No document found for " ++ documentURL }
  | some document =>
    match (env.getLiveSampleIDs document.metadata.slug document.rawHTML).find?
        (fun sampleIDObject => some (strToLower sampleIDObject.id) == sampleID) with
    | some sampleIDObject =>
      match env.render document.url with
      | .error e => .error e.toBuildErr
      | .ok rendered =>
        let liveSamplePage :=
          env.buildLiveSamplePage document.url document.metadata.title rendered.1 sampleIDObject
        match liveSamplePage.flaw with
        | some flaw => .error { message := flaw.display }
        | none => .ok liveSamplePage.html
    | none => .error { message := "No live-sample \"" ++ sampleID.getD "undefined"
                         ++ "\" found within " ++ documentURL }

/-- `renderContributorsTxt`: the contributors.txt body. -/
def renderContributorsTxt (wikiContributorNames : Option (List String) := none)
    (githubURL : Option String := none) : String :=
  (match githubURL with
   | some u => "# Contributors by commit history\n" ++ u ++ "\n\n"
   | none => "") ++
  (match wikiContributorNames with
   | some names => "# Original Wiki contributors\n" ++ intercalateString "\n" names ++ "\n"
   | none => "")

/-! ## Concrete test fixtures (used by the witness theorems) -/

/-- Options with every flaw level set to "warn". -/
def warnOptions : Options :=
  { flawLevels := fun _ => FlawLevel.warn }

/-- Options with every flaw level set to "error". -/
def errorOptions : Options :=
  { flawLevels := fun _ => FlawLevel.error }

/-- Options with every flaw level set to "ignore". -/
def ignoreOptions : Options :=
  { flawLevels := fun _ => FlawLevel.ignore }

/-- A small concrete source document. -/
def sampleDocument : SourceDocument :=
  { url := "/en-US/docs/Test"
    rawHTML := "<p>raw</p>"
    metadata := { slug := "Test", title := "Test Title", locale := "en-US" }
    fileInfo := { folder := "en-us/docs/test", root := "content"
                  path := "files/en-us/docs/test/index.html" } }

/-- A concrete environment whose collaborators all succeed trivially. -/
def sampleEnv : Env :=
  { urlToFolderPath := fun _ => "en-us/docs/test"
    render := fun _ => .ok ("<p>rendered</p>", [])
    getLiveSampleIDs := fun _ _ => []
    buildLiveSamplePage := fun _ _ _ _ => { html := "<html>sample</html>" }
    findByURL := fun _ => none
    languages := fun l => if l == "en-us" then some { native := "English (US)" } else none
    parse := fun s => [HNode.text s]
    buildOptions := warnOptions
    extractSidebar := fun t => ("", t)
    checkImageReferences := fun t _ _ => ([], [], t)
    checkImageWidths := fun t _ _ => ([], t)
    injectFlaws := fun t _ _ => .ok ([], t)
    fixFixableFlaws := fun _ _ => .ok ()
    codeHighlight := fun t => t
    extractSections := fun _ => ([], [])
    injectSectionFlaws := fun _ _ => []
    extractSummary := fun _ => ""
    normalizeBCDURLs := fun s _ => (s, [])
    extractBCDData := fun _ => []
    repositoryURL := fun _ => "mdn/content"
    currentGitBranch := fun _ => "main"
    breadcrumbParents := fun _ => none
    getPageTitle := fun d => d.title }

/-- An environment declaring one live sample with a mixed-case id. -/
def envC1 : Env :=
  { sampleEnv with
    getLiveSampleIDs := fun _ _ => [{ id := "SampleX" }]
    findByURL := fun u => if u == "/en-US/docs/Test" then some sampleDocument else none }

/-- The flaw a failing live-sample build reports. -/
def liveSampleFlaw : Flaw :=
  { name := "LiveSampleError", errorMessage := "no code block" }

/-- An environment with two declared samples, the first of which fails
to build. -/
def envC2 : Env :=
  { sampleEnv with
    getLiveSampleIDs := fun _ _ => [{ id := "BadSample" }, { id := "GoodSample" }]
    buildLiveSamplePage := fun _ _ _ s =>
      if s.id == "BadSample" then { html := "", flaw := some liveSampleFlaw }
      else { html := "<html>good</html>" } }

/-- `envC2` under the "error" macro-flaw policy. -/
def envC3error : Env :=
  { envC2 with buildOptions := errorOptions }

/-- `envC2` under the "ignore" macro-flaw policy. -/
def envC3ignore : Env :=
  { envC2 with buildOptions := ignoreOptions }

/-- A macro flaw reported by rendering. -/
def macroRenderFlaw : Flaw :=
  { name := "MacroBrokenLinkError", errorMessage := "broken link" }

/-- An environment whose render reports one macro flaw, under the
"error" policy. -/
def envC4 : Env :=
  { sampleEnv with
    render := fun _ => .ok ("<p>r</p>", [macroRenderFlaw])
    buildOptions := errorOptions }

/-- A tree carrying two `data-flaw-src` markers. -/
def flawMarkedTree : HNode :=
  .elem "div" [("data-flaw-src", "a"), ("id", "x")]
    [.elem "p" [("data-flaw-src", "b")] [.text "t"]]

/-- An archived document with an invalid slug (double slash). -/
def docC6 : SourceDocument :=
  { sampleDocument with
    metadata := { sampleDocument.metadata with slug := "a//b" }
    isArchive := true }

/-- A document whose slug carries the orphan marker prefix. -/
def docC7 : SourceDocument :=
  { sampleDocument with
    metadata := { sampleDocument.metadata with slug := "orphaned/Test" } }

/-- An external link element's attributes. -/
def attrsC8 : Attrs := [("href", "https://example.com")]

/-- A link into the canonical production site. -/
def attrsC8b : Attrs := [("href", "https://developer.mozilla.org/en-US/docs/Web")]

/-- A document with a popularity value needing rounding. -/
def docC9 : SourceDocument :=
  { sampleDocument with
    metadata := { sampleDocument.metadata with
                  popularity := some ((123456789 : ℚ) / 1000000000) } }

/-- A tree containing a `div.warning`. -/
def warningTree : HNode :=
  .elem "div" [("id", "_body")]
    [.elem "div" [("class", "warning")] [.text "careful"], .text "tail"]

/-- The same tree after the notecard normalizer. -/
def warningNotecardTree : HNode :=
  .elem "div" [("id", "_body")]
    [.elem "div" [("class", "warning notecard")] [.text "careful"], .text "tail"]

/-! ## Helper lemmas: strings and whitespace tokens -/

theorem asString_toList (s : String) : s.toList.asString = s := rfl

theorem toList_asString (l : List Char) : l.asString.toList = l := rfl

theorem strToList_append (a b : String) : (a ++ b).toList = a.toList ++ b.toList :=
  String.data_append a b

theorem splitSpace_ne_nil (cs : List Char) : splitSpace cs ≠ [] := by
  induction cs with
  | nil => simp [splitSpace]
  | cons c rest ih =>
    by_cases hc : c = ' '
    · simp [splitSpace, hc]
    · obtain ⟨t, ts, heq⟩ := List.exists_cons_of_ne_nil ih
      simp [splitSpace, hc, heq]

theorem splitSpace_append_space (xs ys : List Char) :
    splitSpace (xs ++ ' ' :: ys) = splitSpace xs ++ splitSpace ys := by
  induction xs with
  | nil => simp [splitSpace]
  | cons c rest ih =>
    by_cases hc : c = ' '
    · simp [splitSpace, hc, ih]
    · obtain ⟨t, ts, heq⟩ := List.exists_cons_of_ne_nil (splitSpace_ne_nil rest)
      simp [splitSpace, hc, ih, heq]

theorem mem_splitSpace_not_space (cs : List Char) :
    ∀ t ∈ splitSpace cs, ' ' ∉ t := by
  induction cs with
  | nil =>
    intro t ht
    simp [splitSpace] at ht
    simp [ht]
  | cons c rest ih =>
    intro t ht
    by_cases hc : c = ' '
    · simp [splitSpace, hc] at ht
      rcases ht with ht | ht
      · simp [ht]
      · exact ih t ht
    · obtain ⟨t0, ts, heq⟩ := List.exists_cons_of_ne_nil (splitSpace_ne_nil rest)
      simp [splitSpace, hc, heq] at ht
      rcases ht with ht | ht
      · subst ht
        intro hmem
        rcases List.mem_cons.1 hmem with h1 | h1
        · exact hc h1.symm
        · exact ih t0 (heq ▸ List.mem_cons_self t0 ts) h1
      · exact ih t (heq ▸ List.mem_cons_of_mem t0 ht)

theorem splitSpace_of_not_space (cs : List Char) (h : ' ' ∉ cs) :
    splitSpace cs = [cs] := by
  induction cs with
  | nil => simp [splitSpace]
  | cons c rest ih =>
    have hc : ¬ c = ' ' := fun hh => h (hh ▸ List.mem_cons_self c rest)
    have hr : splitSpace rest = [rest] := ih (fun hh => h (List.mem_cons_of_mem c hh))
    simp [splitSpace, hc, hr]

theorem splitSpace_joinSpaceList (ls : List (List Char))
    (h : ∀ l ∈ ls, ' ' ∉ l) (hne : ls ≠ []) :
    splitSpace (joinSpaceList ls) = ls := by
  induction ls with
  | nil => exact absurd rfl hne
  | cons x rest ih =>
    cases rest with
    | nil =>
      simp [joinSpaceList]
      exact splitSpace_of_not_space x (h x (List.mem_cons_self x []))
    | cons y rest2 =>
      have hx : ' ' ∉ x := h x (List.mem_cons_self x _)
      have hrest : ∀ l ∈ y :: rest2, ' ' ∉ l := fun l hl => h l (List.mem_cons_of_mem x hl)
      calc splitSpace (joinSpaceList (x :: y :: rest2))
          = splitSpace (x ++ ' ' :: joinSpaceList (y :: rest2)) := by rw [joinSpaceList]
        _ = splitSpace x ++ splitSpace (joinSpaceList (y :: rest2)) := splitSpace_append_space _ _
        _ = [x] ++ (y :: rest2) := by
              rw [splitSpace_of_not_space x hx, ih hrest (by simp)]
        _ = x :: y :: rest2 := rfl

theorem map_asString_toList (ts : List String) :
    ts.map (List.asString ∘ String.toList) = ts := by
  induction ts with
  | nil => rfl
  | cons t rest ih =>
    simp only [List.map_cons, ih, Function.comp]
    rw [asString_toList]

theorem mem_wsTokens_not_space (s : String) :
    ∀ t ∈ wsTokens s, ' ' ∉ t.toList := by
  intro t ht
  unfold wsTokens at ht
  obtain ⟨l, hl, hrfl⟩ := List.mem_map.1 ht
  rw [← hrfl, toList_asString]
  exact mem_splitSpace_not_space s.toList l hl

theorem wsTokens_joinSpace (ts : List String)
    (h : ∀ t ∈ ts, ' ' ∉ t.toList) (hne : ts ≠ []) :
    wsTokens (joinSpace ts) = ts := by
  unfold wsTokens joinSpace
  rw [toList_asString]
  rw [splitSpace_joinSpaceList (ts.map String.toList)
    (by
      intro l hl
      obtain ⟨t, ht, hrfl⟩ := List.mem_map.1 hl
      rw [← hrfl]
      exact h t ht)
    (by simpa using hne)]
  rw [List.map_map]
  exact map_asString_toList ts

theorem wsTokens_single (c : String) (hc : ' ' ∉ c.toList) : wsTokens c = [c] := by
  unfold wsTokens
  rw [splitSpace_of_not_space c.toList hc]
  simp only [List.map_cons, List.map_nil]
  rw [asString_toList]

theorem wsTokens_append_space (a b : String) :
    wsTokens (a ++ " " ++ b) = wsTokens a ++ wsTokens b := by
  unfold wsTokens
  rw [strToList_append, strToList_append]
  have hsp : (" " : String).toList = [' '] := rfl
  rw [hsp, List.append_assoc]
  simp only [List.singleton_append]
  rw [splitSpace_append_space]
  simp

theorem contains_iff_mem (l : List String) (a : String) :
    l.contains a = true ↔ a ∈ l := by
  simp [List.contains]

/-! ## Helper lemmas: attributes and classes -/

theorem getAttr_setAttr_self (attrs : Attrs) (n v : String) :
    getAttr (setAttr attrs n v) n = some v := by
  induction attrs with
  | nil => simp [setAttr, getAttr]
  | cons p rest ih =>
    cases hb : (p.1 == n) with
    | true => simp [setAttr, getAttr, hb]
    | false => simp [setAttr, getAttr, hb, ih]

theorem getAttr_setAttr_ne (attrs : Attrs) (n m v : String) (h : n ≠ m) :
    getAttr (setAttr attrs n v) m = getAttr attrs m := by
  induction attrs with
  | nil =>
    simp [setAttr, getAttr]
    intro heq
    exact absurd heq h
  | cons p rest ih =>
    cases hb : (p.1 == n) with
    | true =>
      have hp : p.1 = n := by simpa using hb
      have hm : (p.1 == m) = false := by simp [hp, h]
      simp [setAttr, getAttr, hb, hm]
    | false => simp [setAttr, getAttr, hb, ih]

theorem classTokens_setAttr_class (attrs : Attrs) (v : String) :
    classTokens (setAttr attrs "class" v) = wsTokens v := by
  simp [classTokens, getAttr_setAttr_self]

theorem getAttr_addClass_ne (attrs : Attrs) (c m : String) (h : m ≠ "class") :
    getAttr (addClass attrs c) m = getAttr attrs m := by
  unfold addClass
  split
  · rfl
  · exact getAttr_setAttr_ne attrs "class" m _ (Ne.symm h)

theorem hasClass_setAttr_ne (attrs : Attrs) (n v c : String) (h : n ≠ "class") :
    hasClass (setAttr attrs n v) c = hasClass attrs c := by
  simp [hasClass, classTokens, getAttr_setAttr_ne attrs n "class" v h]

theorem hasClass_addClass_self (attrs : Attrs) (c : String)
    (hsp : ' ' ∉ c.toList) :
    hasClass (addClass attrs c) c = true := by
  cases hh : hasClass attrs c with
  | true =>
    rw [addClass, if_pos (by simp [hh])]
    exact hh
  | false =>
    rw [addClass, if_neg (by simp [hh])]
    cases hold : (((getAttr attrs "class").getD "") == "") with
    | true =>
      rw [if_pos (by simp [hold])]
      rw [hasClass, classTokens_setAttr_class, wsTokens_single c hsp]
      simp
    | false =>
      rw [if_neg (by simp [hold])]
      rw [hasClass, classTokens_setAttr_class, wsTokens_append_space,
        wsTokens_single c hsp]
      rw [contains_iff_mem]
      simp

/-! ## Helper lemmas: tree passes -/

theorem mapElemsList_mapElemsList (f g : String → Attrs → Attrs) (l : List HNode) :
    mapElemsList g (mapElemsList f l) = mapElemsList (fun t a => g t (f t a)) l := by
  induction l using attrsList.induct with
  | case1 => simp [mapElemsList]
  | case2 s rest ih => simp [mapElemsList, ih]
  | case3 t a cs rest ih1 ih2 => simp [mapElemsList, ih1, ih2]

theorem attrsList_mapElemsList (g : Attrs → Attrs) (l : List HNode) :
    attrsList (mapElemsList (fun _ a => g a) l) = (attrsList l).map g := by
  induction l using attrsList.induct with
  | case1 => simp [mapElemsList, attrsList]
  | case2 s rest ih => simp [mapElemsList, attrsList, ih]
  | case3 t a cs rest ih1 ih2 => simp [mapElemsList, attrsList, ih1, ih2]

theorem skeleton_mapElems (f : String → Attrs → Attrs) (n : HNode) :
    skeleton (mapElems f n) = skeleton n := by
  cases n with
  | text s => rfl
  | elem t a cs => simp [skeleton, mapElems, mapElemsList_mapElemsList]

theorem filter_filter_ne_eq_nil (a : Attrs) (name : String) :
    ((a.filter (fun p => p.1 != name)).filter (fun p => p.1 == name)) = [] := by
  induction a with
  | nil => rfl
  | cons p rest ih =>
    cases hb : (p.1 == name) with
    | true =>
      have hb2 : (p.1 != name) = false := by simp [bne, hb]
      simp only [List.filter_cons, hb2, Bool.false_eq_true, if_false]
      exact ih
    | false =>
      have hb2 : (p.1 != name) = true := by simp [bne, hb]
      simp only [List.filter_cons, hb2, if_true, hb, Bool.false_eq_true, if_false]
      exact ih

theorem sum_map_zero {α : Type} (l : List α) : (l.map (fun _ => (0 : Nat))).sum = 0 := by
  induction l with
  | nil => rfl
  | cons x rest ih => simp [ih]

/-! ## Claim C10 -/

/-- Claim C10: applying the notecard normalizer to a tree containing
`<div class="warning">` produces `<div class="warning notecard">`, a
second application changes nothing, and the resulting class attribute
carries the `notecard` token exactly once. -/
theorem claim_C10_theorem :
    injectNotecardOnWarnings warningTree = warningNotecardTree
    ∧ injectNotecardOnWarnings warningNotecardTree = warningNotecardTree
    ∧ (classTokens [("class", "warning notecard")]).count "notecard" = 1 := by
  have h0 : notecardStep "div" [("id", "_body")] = [("id", "_body")] := by decide
  have h1 : notecardStep "div" [("class", "warning")] = [("class", "warning notecard")] := by
    decide
  have h2 : notecardStep "div" [("class", "warning notecard")]
      = [("class", "warning notecard")] := by decide
  refine ⟨?_, ?_, by decide⟩ <;>
    simp [injectNotecardOnWarnings, warningTree, warningNotecardTree, mapElems,
      mapElemsList, h0, h1, h2]

/-! ## Claim C5 -/

/-- Claim C5: under the "ignore" macro-flaw policy, the strip pass applied
to the loaded tree removes every `data-flaw-src` attribute (zero remain),
and removes nothing else: the skeleton — tags, nesting and text — is
unchanged and every element keeps exactly its other attributes. -/
theorem claim_C5_theorem (options : Options) (t : HNode)
    (h : options.flawLevels "macros" = FlawLevel.ignore) :
    attrOccurrences "data-flaw-src" [stripFlawSrcIfIgnored options t] = 0
    ∧ skeleton (stripFlawSrcIfIgnored options t) = skeleton t
    ∧ attrsList [stripFlawSrcIfIgnored options t]
        = (attrsList [t]).map (fun a => a.filter (fun p => p.1 != "data-flaw-src")) := by
  have hs : stripFlawSrcIfIgnored options t = removeDataFlawSrc t := by
    simp [stripFlawSrcIfIgnored, h]
  rw [hs]
  have hattrs : attrsList [removeDataFlawSrc t]
      = (attrsList [t]).map (fun a => a.filter (fun p => p.1 != "data-flaw-src")) := by
    cases t with
    | text s => simp [removeDataFlawSrc, mapElems, attrsList]
    | elem tag a cs =>
      show attrsList [HNode.elem tag (removeAttr a "data-flaw-src")
          (mapElemsList (fun _ a => removeAttr a "data-flaw-src") cs)] = _
      simp only [attrsList, List.append_nil]
      rw [attrsList_mapElemsList (fun a => removeAttr a "data-flaw-src") cs]
      simp [removeAttr]
  refine ⟨?_, ?_, hattrs⟩
  · rw [attrOccurrences, hattrs]
    apply List.sum_eq_zero
    intro x hx
    simp only [List.map_map] at hx
    obtain ⟨a, _, hrfl⟩ := List.mem_map.1 hx
    rw [← hrfl]
    simp only [Function.comp_apply]
    rw [filter_filter_ne_eq_nil]
    rfl
  · exact skeleton_mapElems _ t

/-- Witness for claim C5 at a concrete tree with two flaw markers. -/
theorem claim_C5_witness :
    attrOccurrences "data-flaw-src" [stripFlawSrcIfIgnored ignoreOptions flawMarkedTree] = 0
    ∧ skeleton (stripFlawSrcIfIgnored ignoreOptions flawMarkedTree) = skeleton flawMarkedTree
    ∧ attrsList [stripFlawSrcIfIgnored ignoreOptions flawMarkedTree] = [[("id", "x")], []] := by
  have h := claim_C5_theorem ignoreOptions flawMarkedTree rfl
  refine ⟨h.1, h.2.1, ?_⟩
  rw [h.2.2]
  simp [flawMarkedTree, attrsList]

/-! ## Claim C8 -/

/-- Claim C8: for an `a` element whose `href` starts with `http`, the
external-link pass leaves links into `https://developer.mozilla.org`
unchanged; every other such link gains the `external` class and a `rel`
attribute containing `noopener`, unchanged if `noopener` was already
present and appended exactly once otherwise. -/
theorem claim_C8_theorem (attrs : Attrs) (href : String)
    (hhref : getAttr attrs "href" = some href)
    (hhttp : strStartsWith href "http" = true) :
    (strStartsWith href "https://developer.mozilla.org" = true →
        externalLinkStep "a" attrs = attrs)
    ∧ (strStartsWith href "https://developer.mozilla.org" = false →
        hasClass (externalLinkStep "a" attrs) "external" = true
        ∧ "noopener" ∈ wsTokens ((getAttr (externalLinkStep "a" attrs) "rel").getD "")
        ∧ ("noopener" ∈ wsTokens ((getAttr attrs "rel").getD "") →
              getAttr (externalLinkStep "a" attrs) "rel" = getAttr attrs "rel")
        ∧ ("noopener" ∉ wsTokens ((getAttr attrs "rel").getD "") →
              wsTokens ((getAttr (externalLinkStep "a" attrs) "rel").getD "")
                = wsTokens ((getAttr attrs "rel").getD "") ++ ["noopener"])) := by
  constructor
  · intro hmoz
    simp [externalLinkStep, hhref, hhttp, hmoz]
  · intro hmoz
    have hrel1 : getAttr (addClass attrs "external") "rel" = getAttr attrs "rel" :=
      getAttr_addClass_ne attrs "external" "rel" (by decide)
    have hstep : externalLinkStep "a" attrs =
        (if (wsTokens ((getAttr attrs "rel").getD "")).contains "noopener"
         then addClass attrs "external"
         else setAttr (addClass attrs "external") "rel"
           (joinSpace (wsTokens ((getAttr attrs "rel").getD "") ++ ["noopener"]))) := by
      simp only [externalLinkStep, hhref, hhttp, hmoz, Bool.and_true, Bool.true_and,
        if_true, if_false, Bool.false_eq_true, beq_self_eq_true, hrel1]
    have hext : hasClass (addClass attrs "external") "external" = true :=
      hasClass_addClass_self attrs "external" (by decide)
    cases hc : (wsTokens ((getAttr attrs "rel").getD "")).contains "noopener" with
    | true =>
      have hmem : "noopener" ∈ wsTokens ((getAttr attrs "rel").getD "") :=
        (contains_iff_mem _ _).1 hc
      rw [hstep, if_pos hc]
      refine ⟨hext, ?_, ?_, ?_⟩
      · rw [hrel1]
        exact hmem
      · intro _
        exact hrel1
      · intro hno
        exact absurd hmem hno
    | false =>
      have hnomem : "noopener" ∉ wsTokens ((getAttr attrs "rel").getD "") := by
        intro hmem
        rw [(contains_iff_mem _ _).2 hmem] at hc
        exact Bool.true_eq_false.mp hc
      rw [hstep, if_neg (by rw [hc]; exact Bool.false_ne_true)]
      have htok : wsTokens (joinSpace (wsTokens ((getAttr attrs "rel").getD "")
          ++ ["noopener"]))
          = wsTokens ((getAttr attrs "rel").getD "") ++ ["noopener"] := by
        apply wsTokens_joinSpace
        · intro tk htk
          rcases List.mem_append.1 htk with h1 | h1
          · exact mem_wsTokens_not_space _ tk h1
          · simp at h1
            subst h1
            decide
        · simp
      refine ⟨?_, ?_, ?_, ?_⟩
      · rw [hasClass_setAttr_ne _ "rel" _ "external" (by decide)]
        exact hext
      · rw [getAttr_setAttr_self]
        simp only [Option.getD_some]
        rw [htok]
        simp
      · intro hmem
        exact absurd hmem hnomem
      · intro _
        rw [getAttr_setAttr_self]
        simp only [Option.getD_some]
        exact htok

/-- Witness for claim C8: a link to `https://example.com` is annotated
(class `external`, `rel` gains `noopener`), a link into
`https://developer.mozilla.org` is left unchanged. -/
theorem claim_C8_witness :
    hasClass (externalLinkStep "a" attrsC8) "external" = true
    ∧ "noopener" ∈ wsTokens ((getAttr (externalLinkStep "a" attrsC8) "rel").getD "")
    ∧ externalLinkStep "a" attrsC8b = attrsC8b := by
  have h1 := claim_C8_theorem attrsC8 "https://example.com" (by decide) (by decide)
  have h2 := claim_C8_theorem attrsC8b "https://developer.mozilla.org/en-US/docs/Web"
    (by decide) (by decide)
  exact ⟨(h1.2 (by decide)).1, (h1.2 (by decide)).2.1, h2.1 (by decide)⟩

/-! ## Helper lemmas: the build pipeline -/

theorem liveSampleLoop_spec (env : Env) (url title renderedHtml : String)
    (fileInfo : FileInfo) (ids : List SampleID) (acc : List Flaw × List LiveSample) :
    liveSampleLoop env url title renderedHtml fileInfo ids acc =
      (acc.1 ++ ids.filterMap (fun s =>
          ((env.buildLiveSamplePage url title renderedHtml s).flaw).map
            (fun fl => fl.updateFileInfo fileInfo)),
       acc.2 ++ ids.filterMap (fun s =>
          match (env.buildLiveSamplePage url title renderedHtml s).flaw with
          | some _ => none
          | none => some { id := strToLower s.id
                           html := (env.buildLiveSamplePage url title renderedHtml s).html })) := by
  induction ids generalizing acc with
  | nil => simp [liveSampleLoop]
  | cons s rest ih =>
    have hfold : liveSampleLoop env url title renderedHtml fileInfo (s :: rest) acc
        = liveSampleLoop env url title renderedHtml fileInfo rest
            (liveSampleStep env url title renderedHtml fileInfo acc s) := rfl
    rw [hfold, ih]
    cases hfl : (env.buildLiveSamplePage url title renderedHtml s).flaw with
    | some fl => simp [liveSampleStep, hfl, List.filterMap_cons]
    | none => simp [liveSampleStep, hfl, List.filterMap_cons]

theorem documentSampleLoop_spec (env : Env) (document : SourceDocument)
    (renderedHtml : String) (flaws0 : List Flaw) :
    documentSampleLoop env document renderedHtml flaws0 =
      (flaws0 ++ (env.getLiveSampleIDs document.metadata.slug document.rawHTML).filterMap
          (fun s => ((env.buildLiveSamplePage document.url document.metadata.title
              renderedHtml s).flaw).map
            (fun fl => fl.updateFileInfo document.fileInfo)),
       (env.getLiveSampleIDs document.metadata.slug document.rawHTML).filterMap
          (fun s => match (env.buildLiveSamplePage document.url document.metadata.title
              renderedHtml s).flaw with
            | some _ => none
            | none => some { id := strToLower s.id
                             html := (env.buildLiveSamplePage document.url
                               document.metadata.title renderedHtml s).html })) := by
  unfold documentSampleLoop
  rw [liveSampleLoop_spec]
  simp

theorem renderPhase_archive (env : Env) (document : SourceDocument)
    (hA : document.isArchive = true) :
    renderPhase env document = Except.ok (document.rawHTML, [], []) := by
  unfold renderPhase
  rw [hA]
  simp

theorem renderPhase_nonarchive (env : Env) (document : SourceDocument)
    (html : String) (flaws0 : List Flaw)
    (hA : document.isArchive = false)
    (hR : env.render document.url = Except.ok (html, flaws0)) :
    renderPhase env document = Except.ok (html,
      (documentSampleLoop env document html flaws0).1,
      (documentSampleLoop env document html flaws0).2) := by
  unfold renderPhase
  rw [hA, hR]
  simp

theorem buildDocumentMain_ok_inv (env : Env) (document : SourceDocument) (options : Options)
    (renderedHtml : String) (flawsMacros : Option (List MacroFlaw))
    (liveSamples : List LiveSample) (r : BuildResult)
    (h : buildDocumentMain env document options renderedHtml flawsMacros liveSamples
        = Except.ok r) :
    r.doc.noIndexing = ((document.isArchive && !document.isTranslated)
        || (document.metadata.slug == "MDN/Kitchensink")
        || strStartsWith document.metadata.slug "orphaned/"
        || strStartsWith document.metadata.slug "conflicting/")
    ∧ r.doc.popularity = popularityOf document.metadata
    ∧ r.doc.modified = document.metadata.modified
    ∧ r.doc.flaws.macros = flawsMacros
    ∧ r.liveSamples = liveSamples := by
  simp only [buildDocumentMain] at h
  split at h
  · exact absurd h (by simp)
  · split at h
    · exact absurd h (by simp)
    · split at h
      · exact absurd h (by simp)
      · split at h
        · exact absurd h (by simp)
        · rw [Except.ok.injEq] at h
          subst h
          exact ⟨rfl, rfl, rfl, rfl, rfl⟩

theorem buildDocument_ok_inv (env : Env) (document : SourceDocument)
    (documentOptions : DocumentOptions) (r : BuildResult)
    (h : buildDocument env document documentOptions = Except.ok r) :
    r.doc.noIndexing = ((document.isArchive && !document.isTranslated)
        || (document.metadata.slug == "MDN/Kitchensink")
        || strStartsWith document.metadata.slug "orphaned/"
        || strStartsWith document.metadata.slug "conflicting/")
    ∧ r.doc.popularity = popularityOf document.metadata
    ∧ r.doc.modified = document.metadata.modified := by
  simp only [buildDocument] at h
  split at h
  · exact absurd h (by simp)
  · split at h
    · exact absurd h (by simp)
    · split at h
      · exact absurd h (by simp)
      · split at h
        · exact absurd h (by simp)
        · have hm := buildDocumentMain_ok_inv _ _ _ _ _ _ _ h
          exact ⟨hm.1, hm.2.1, hm.2.2.1⟩

theorem buildDocument_unfold_nonarchive (env : Env) (document : SourceDocument)
    (documentOptions : DocumentOptions) (html : String) (flaws0 : List Flaw)
    (hfolder : env.urlToFolderPath document.url = document.fileInfo.folder)
    (hA : document.isArchive = false)
    (hR : env.render document.url = Except.ok (html, flaws0)) :
    buildDocument env document documentOptions =
      (match macroFlawPolicy (mergeOptions env.buildOptions documentOptions) document
          (documentSampleLoop env document html flaws0).1 with
       | .error e => .error e
       | .ok flawsMacros =>
         match validateSlug document.metadata.slug with
         | .error e => .error e
         | .ok _ =>
             buildDocumentMain env document
               (mergeOptions env.buildOptions documentOptions) html flawsMacros
               (documentSampleLoop env document html flaws0).2) := by
  simp only [buildDocument]
  rw [if_neg (by rw [hfolder]; exact fun hcon => hcon rfl)]
  rw [renderPhase_nonarchive env document html flaws0 hA hR]

theorem buildDocument_ok_nonarchive_inv (env : Env) (document : SourceDocument)
    (documentOptions : DocumentOptions) (r : BuildResult) (html : String)
    (flaws0 : List Flaw)
    (hfolder : env.urlToFolderPath document.url = document.fileInfo.folder)
    (hA : document.isArchive = false)
    (hR : env.render document.url = Except.ok (html, flaws0))
    (h : buildDocument env document documentOptions = Except.ok r) :
    r.liveSamples = (documentSampleLoop env document html flaws0).2
    ∧ macroFlawPolicy (mergeOptions env.buildOptions documentOptions) document
        (documentSampleLoop env document html flaws0).1
      = Except.ok r.doc.flaws.macros := by
  rw [buildDocument_unfold_nonarchive env document documentOptions html flaws0
    hfolder hA hR] at h
  split at h
  · exact absurd h (by simp)
  · next flawsMacros heq =>
    split at h
    · exact absurd h (by simp)
    · have hm := buildDocumentMain_ok_inv _ _ _ _ _ _ _ h
      refine ⟨hm.2.2.2.2, ?_⟩
      rw [← hm.2.2.2.1] at heq
      exact heq

theorem macroFlawPolicy_error (options : Options) (document : SourceDocument)
    (flaws : List Flaw) (hne : flaws ≠ [])
    (hpol : options.flawLevels "macros" = FlawLevel.error) :
    macroFlawPolicy options document flaws =
      Except.error { message := "Flaw error encountered"
                     consoleLog := reportMacroFlaws document.metadata.slug flaws } := by
  unfold macroFlawPolicy
  rw [if_pos (by simpa using hne), if_pos hpol]

theorem macroFlawPolicy_warn (options : Options) (document : SourceDocument)
    (flaws : List Flaw) (hne : flaws ≠ [])
    (hpol : options.flawLevels "macros" = FlawLevel.warn) :
    macroFlawPolicy options document flaws =
      Except.ok (some (flaws.enum.map (beefUpFlaw document))) := by
  unfold macroFlawPolicy
  rw [if_pos (by simpa using hne), if_neg (by rw [hpol]; exact fun hcon => FlawLevel.noConfusion hcon),
    if_pos hpol]

theorem macroFlawPolicy_ignore (options : Options) (document : SourceDocument)
    (flaws : List Flaw)
    (hpol : options.flawLevels "macros" = FlawLevel.ignore) :
    macroFlawPolicy options document flaws = Except.ok none := by
  unfold macroFlawPolicy
  by_cases hne : flaws.length ≠ 0
  · rw [if_pos hne,
      if_neg (by rw [hpol]; exact fun hcon => FlawLevel.noConfusion hcon),
      if_neg (by rw [hpol]; exact fun hcon => FlawLevel.noConfusion hcon)]
  · rw [if_neg hne]

theorem mem_reportMacroFlaws (slug : String) (flaws : List Flaw) (f : Flaw)
    (hf : f ∈ flaws) :
    (Flaw.display f ++ "\n") ∈ reportMacroFlaws slug flaws := by
  unfold reportMacroFlaws
  apply List.mem_cons_of_mem
  have hp : ∃ p ∈ flaws.enum, p.2 = f := by
    have h2 : f ∈ flaws.enum.map Prod.snd := by
      rw [List.enum_map_snd]
      exact hf
    simpa using List.mem_map.1 h2
  obtain ⟨p, hpmem, hpf⟩ := hp
  refine List.mem_flatten.2 ⟨[toString (p.1 + 1) ++ ": " ++ p.2.name, p.2.display ++ "\n"],
    List.mem_map_of_mem _ hpmem, ?_⟩
  rw [hpf]
  simp

theorem toFixed4_zero : toFixed4 0 = 0 := by
  simp [toFixed4]

theorem toFixed4_example : toFixed4 ((123456789 : ℚ) / 1000000000) = 1235 / 10000 := by
  have hr : round ((123456789 : ℚ) / 1000000000 * 10000) = 1235 := by
    rw [round_eq]
    norm_num
  rw [toFixed4, hr]
  norm_num

theorem validateSlugError_of_bad (slug : String)
    (hbad : slug = "" ∨ strStartsWith slug "/" = true ∨ strEndsWith slug "/" = true
        ∨ strContainsSub slug "//" = true) :
    ∃ m, validateSlugError slug = some m := by
  unfold validateSlugError
  by_cases h0 : (slug == "") = true
  · simp [h0]
  · rcases hbad with h1 | h1 | h1 | h1
    · exact absurd (by simp [h1]) h0
    · simp [h0, h1]
    · by_cases h2 : strStartsWith slug "/" = true
      · simp [h0, h2]
      · simp [h0, h2, h1]
    · by_cases h2 : strStartsWith slug "/" = true
      · simp [h0, h2]
      · by_cases h3 : strEndsWith slug "/" = true
        · simp [h0, h2, h3]
        · simp [h0, h2, h3, h1]

/-! ## Claim C7 -/

/-- Claim C7: a successful `buildDocument` sets `noIndexing` true exactly
when (archived and not a translation) or the slug is the `MDN/Kitchensink`
sandbox page or the slug starts with the `orphaned/` or `conflicting/`
marker prefix; in particular an `orphaned/` slug always forces
`noIndexing = true`, regardless of any other flags. -/
theorem claim_C7_theorem (env : Env) (document : SourceDocument)
    (documentOptions : DocumentOptions) (r : BuildResult)
    (h : buildDocument env document documentOptions = Except.ok r) :
    r.doc.noIndexing = ((document.isArchive && !document.isTranslated)
        || (document.metadata.slug == "MDN/Kitchensink")
        || strStartsWith document.metadata.slug "orphaned/"
        || strStartsWith document.metadata.slug "conflicting/")
    ∧ (strStartsWith document.metadata.slug "orphaned/" = true →
        r.doc.noIndexing = true) := by
  have hi := buildDocument_ok_inv env document documentOptions r h
  refine ⟨hi.1, fun horph => ?_⟩
  rw [hi.1, horph]
  simp

/-- Witness for claim C7: a concrete non-archived document with slug
`orphaned/Test` builds successfully with `noIndexing = true`. -/
theorem claim_C7_witness :
    (buildDocument sampleEnv docC7 {}).map (fun r => r.doc.noIndexing)
      = Except.ok true := by
  obtain ⟨r, hr⟩ : ∃ r, buildDocument sampleEnv docC7 {} = Except.ok r := ⟨_, rfl⟩
  have h := claim_C7_theorem sampleEnv docC7 {} r hr
  rw [hr]
  simp only [Except.map]
  rw [h.2 (by decide)]

/-! ## Claim C9 -/

/-- Claim C9: a successful `buildDocument` stores `doc.popularity` as the
metadata popularity rounded to four decimal digits (`0.123456789` is
stored as `0.1235`), and stores `0.0` when the popularity is absent.
`Number(x.toFixed(4))` is modelled as exact rational rounding. -/
theorem claim_C9_theorem (env : Env) (document : SourceDocument)
    (documentOptions : DocumentOptions) (r : BuildResult)
    (h : buildDocument env document documentOptions = Except.ok r) :
    (∀ p : ℚ, document.metadata.popularity = some p → r.doc.popularity = toFixed4 p)
    ∧ (document.metadata.popularity = none → r.doc.popularity = 0)
    ∧ toFixed4 ((123456789 : ℚ) / 1000000000) = 1235 / 10000 := by
  have hi := buildDocument_ok_inv env document documentOptions r h
  refine ⟨?_, ?_, toFixed4_example⟩
  · intro p hp
    rw [hi.2.1]
    unfold popularityOf
    rw [hp]
    cases hb : (p == 0) with
    | true =>
      have hp0 : p = 0 := by simpa using hb
      simp [hb, hp0, toFixed4_zero]
    | false => simp [hb]
  · intro hp
    rw [hi.2.1]
    unfold popularityOf
    rw [hp]

/-- Witness for claim C9: popularity `123456789/1000000000` is stored as
`1235/10000`, and an absent popularity is stored as `0`. -/
theorem claim_C9_witness :
    (buildDocument sampleEnv docC9 {}).map (fun r => r.doc.popularity)
      = Except.ok ((1235 : ℚ) / 10000)
    ∧ (buildDocument sampleEnv sampleDocument {}).map (fun r => r.doc.popularity)
      = Except.ok (0 : ℚ) := by
  constructor
  · obtain ⟨r, hr⟩ : ∃ r, buildDocument sampleEnv docC9 {} = Except.ok r := ⟨_, rfl⟩
    have h := claim_C9_theorem sampleEnv docC9 {} r hr
    rw [hr]
    simp only [Except.map]
    rw [h.1 ((123456789 : ℚ) / 1000000000) rfl, h.2.2]
  · obtain ⟨r, hr⟩ : ∃ r, buildDocument sampleEnv sampleDocument {} = Except.ok r :=
      ⟨_, rfl⟩
    have h := claim_C9_theorem sampleEnv sampleDocument {} r hr
    rw [hr]
    simp only [Except.map]
    rw [h.2.1 rfl]

/-! ## Claim C6 -/

/-- Claim C6: every slug that is empty, starts with `/`, ends with `/` or
contains `//` makes `validateSlug` fail, and `buildDocument` then throws
exactly the validation error.  The theorem holds for every environment —
in particular for every `parse` function and every tree-consuming
collaborator — so the failure is decided before the HTML tree is loaded
or mutated (`validateSlug` runs before `cheerio.load` in the source). -/
theorem claim_C6_theorem (slug : String)
    (hbad : slug = "" ∨ strStartsWith slug "/" = true ∨ strEndsWith slug "/" = true
        ∨ strContainsSub slug "//" = true)
    (env : Env) (document : SourceDocument) (documentOptions : DocumentOptions)
    (html : String) (flaws : List Flaw) (liveSamples : List LiveSample)
    (flawsMacros : Option (List MacroFlaw))
    (hslug : document.metadata.slug = slug)
    (hfolder : env.urlToFolderPath document.url = document.fileInfo.folder)
    (hrp : renderPhase env document = Except.ok (html, flaws, liveSamples))
    (hpol : macroFlawPolicy (mergeOptions env.buildOptions documentOptions) document flaws
        = Except.ok flawsMacros) :
    (validateSlug slug).isOk = false
    ∧ buildDocument env document documentOptions
        = Except.error { message := (validateSlugError slug).getD "" } := by
  obtain ⟨m, hm⟩ := validateSlugError_of_bad slug hbad
  constructor
  · unfold validateSlug
    rw [hm]
    rfl
  · simp only [buildDocument]
    rw [if_neg (by rw [hfolder]; exact fun hcon => hcon rfl)]
    rw [hrp]
    dsimp only
    rw [hpol]
    dsimp only
    rw [hslug]
    unfold validateSlug
    rw [hm]
    simp [hm]

/-- Witness for claim C6: the slug `a//b` fails validation and the whole
build throws the double-slash error message. -/
theorem claim_C6_witness :
    (validateSlug "a//b").isOk = false
    ∧ buildDocument sampleEnv docC6 {}
        = Except.error { message := "Slug 'a//b' contains a double /" } := by
  have h := claim_C6_theorem "a//b" (by decide) sampleEnv docC6 {}
    "<p>raw</p>" [] [] none rfl rfl
    (renderPhase_archive sampleEnv docC6 rfl) rfl
  exact ⟨h.1, h.2⟩

/-! ## Claim C4 -/

/-- Claim C4: for a non-archived document under the "error" macro-flaw
policy with at least one reported macro flaw, `buildDocument` throws the
"Flaw error encountered" error after reporting every flaw found (the
console log carries one rendering per flaw), and produces no output
document. -/
theorem claim_C4_theorem (env : Env) (document : SourceDocument)
    (documentOptions : DocumentOptions) (html : String) (flaws0 : List Flaw)
    (hfolder : env.urlToFolderPath document.url = document.fileInfo.folder)
    (hA : document.isArchive = false)
    (hR : env.render document.url = Except.ok (html, flaws0))
    (hpol : (mergeOptions env.buildOptions documentOptions).flawLevels "macros"
        = FlawLevel.error)
    (hne : flaws0 ≠ []) :
    buildDocument env document documentOptions
      = Except.error { message := "Flaw error encountered",
                       consoleLog := reportMacroFlaws document.metadata.slug
                         (documentSampleLoop env document html flaws0).1 }
    ∧ (∀ f ∈ (documentSampleLoop env document html flaws0).1,
        (Flaw.display f ++ "\n") ∈ reportMacroFlaws document.metadata.slug
          (documentSampleLoop env document html flaws0).1)
    ∧ (buildDocument env document documentOptions).isOk = false := by
  have hloopne : (documentSampleLoop env document html flaws0).1 ≠ [] := by
    rw [documentSampleLoop_spec]
    exact fun hcon => hne (List.append_eq_nil.mp hcon).1
  have heq := buildDocument_unfold_nonarchive env document documentOptions html flaws0
    hfolder hA hR
  rw [macroFlawPolicy_error _ _ _ hloopne hpol] at heq
  have hbd : buildDocument env document documentOptions
      = Except.error { message := "Flaw error encountered",
                       consoleLog := reportMacroFlaws document.metadata.slug
                         (documentSampleLoop env document html flaws0).1 } := heq
  refine ⟨hbd, fun f hf => mem_reportMacroFlaws _ _ f hf, ?_⟩
  rw [hbd]
  rfl

/-- Witness for claim C4: one reported macro flaw under the "error"
policy throws after logging the flaw. -/
theorem claim_C4_witness :
    buildDocument envC4 sampleDocument {}
      = Except.error { message := "Flaw error encountered",
                       consoleLog := reportMacroFlaws "Test" [macroRenderFlaw] }
    ∧ (Flaw.display macroRenderFlaw ++ "\n") ∈ reportMacroFlaws "Test" [macroRenderFlaw]
    ∧ (buildDocument envC4 sampleDocument {}).isOk = false := by
  have h := claim_C4_theorem envC4 sampleDocument {} "<p>r</p>" [macroRenderFlaw]
    rfl rfl rfl rfl (by decide)
  exact ⟨h.1, h.2.1 macroRenderFlaw (by decide), h.2.2⟩

/-! ## Claim C2 -/

/-- Claim C2: when `kumascript.buildLiveSamplePage` reports a flaw for a
sample, that flaw (with file info attached) is appended to the document's
flaw list and that sample alone is omitted from the returned
`liveSamples`; the loop characterization covers every declared sample, so
one failure does not abort extraction of the remaining samples, and a
successful `buildDocument` returns exactly the loop's sample list. -/
theorem claim_C2_theorem (env : Env) (document : SourceDocument)
    (documentOptions : DocumentOptions) (r : BuildResult) (html : String)
    (flaws0 : List Flaw)
    (hfolder : env.urlToFolderPath document.url = document.fileInfo.folder)
    (hA : document.isArchive = false)
    (hR : env.render document.url = Except.ok (html, flaws0))
    (h : buildDocument env document documentOptions = Except.ok r) :
    (documentSampleLoop env document html flaws0).1
      = flaws0 ++ (env.getLiveSampleIDs document.metadata.slug document.rawHTML).filterMap
          (fun s => ((env.buildLiveSamplePage document.url document.metadata.title
              html s).flaw).map (fun fl => fl.updateFileInfo document.fileInfo))
    ∧ (documentSampleLoop env document html flaws0).2
      = (env.getLiveSampleIDs document.metadata.slug document.rawHTML).filterMap
          (fun s => match (env.buildLiveSamplePage document.url document.metadata.title
              html s).flaw with
            | some _ => none
            | none => some { id := strToLower s.id
                             html := (env.buildLiveSamplePage document.url
                               document.metadata.title html s).html })
    ∧ r.liveSamples = (documentSampleLoop env document html flaws0).2 := by
  have hinv := buildDocument_ok_nonarchive_inv env document documentOptions r html flaws0
    hfolder hA hR h
  have hspec := documentSampleLoop_spec env document html flaws0
  refine ⟨?_, ?_, hinv.1⟩
  · rw [hspec]
  · rw [hspec]

/-- Witness for claim C2: with a failing `BadSample` and a succeeding
`GoodSample`, the build returns only the good sample and the bad sample's
flaw is appended to the flaw list. -/
theorem claim_C2_witness :
    (buildDocument envC2 sampleDocument {}).map (fun r => r.liveSamples)
      = Except.ok [{ id := "goodsample", html := "<html>good</html>" }]
    ∧ documentSampleLoop envC2 sampleDocument "<p>rendered</p>" []
      = ([liveSampleFlaw.updateFileInfo sampleDocument.fileInfo],
         [{ id := "goodsample", html := "<html>good</html>" }]) := by
  obtain ⟨r, hr⟩ : ∃ r, buildDocument envC2 sampleDocument {} = Except.ok r := ⟨_, rfl⟩
  have h := claim_C2_theorem envC2 sampleDocument {} r "<p>rendered</p>" []
    rfl rfl rfl hr
  constructor
  · rw [hr]
    simp only [Except.map]
    rw [h.2.2]
    rfl
  · rfl

/-! ## Claim C3 -/

/-- Claim C3: a live-sample build flaw is appended to the same list as the
macro-expansion flaws, so the macro-flaw policy governs it: under "error"
one failed live sample makes the whole `buildDocument` call throw; under
"warn" it is reported inside `doc.flaws.macros` (not under any
live-sample-specific kind); under "ignore" it is absent from the output. -/
theorem claim_C3_theorem (env : Env) (document : SourceDocument)
    (documentOptions : DocumentOptions) (html : String) (flaws0 : List Flaw)
    (s : SampleID) (f : Flaw)
    (hfolder : env.urlToFolderPath document.url = document.fileInfo.folder)
    (hA : document.isArchive = false)
    (hR : env.render document.url = Except.ok (html, flaws0))
    (hs : s ∈ env.getLiveSampleIDs document.metadata.slug document.rawHTML)
    (hf : (env.buildLiveSamplePage document.url document.metadata.title html s).flaw
        = some f) :
    f.updateFileInfo document.fileInfo ∈ (documentSampleLoop env document html flaws0).1
    ∧ ((mergeOptions env.buildOptions documentOptions).flawLevels "macros"
          = FlawLevel.error →
        buildDocument env document documentOptions
          = Except.error { message := "Flaw error encountered",
                           consoleLog := reportMacroFlaws document.metadata.slug
                             (documentSampleLoop env document html flaws0).1 })
    ∧ ((mergeOptions env.buildOptions documentOptions).flawLevels "macros"
          = FlawLevel.warn →
        ∀ r : BuildResult, buildDocument env document documentOptions = Except.ok r →
          ∃ mf ∈ r.doc.flaws.macros.getD [],
            mf.flaw = f.updateFileInfo document.fileInfo)
    ∧ ((mergeOptions env.buildOptions documentOptions).flawLevels "macros"
          = FlawLevel.ignore →
        ∀ r : BuildResult, buildDocument env document documentOptions = Except.ok r →
          r.doc.flaws.macros = none) := by
  have hmem : f.updateFileInfo document.fileInfo
      ∈ (documentSampleLoop env document html flaws0).1 := by
    rw [documentSampleLoop_spec]
    refine List.mem_append.2 (Or.inr ?_)
    exact List.mem_filterMap.2 ⟨s, hs, by rw [hf]; rfl⟩
  have hne : (documentSampleLoop env document html flaws0).1 ≠ [] :=
    List.ne_nil_of_mem hmem
  refine ⟨hmem, ?_, ?_, ?_⟩
  · intro hpol
    have heq := buildDocument_unfold_nonarchive env document documentOptions html flaws0
      hfolder hA hR
    rw [macroFlawPolicy_error _ _ _ hne hpol] at heq
    exact heq
  · intro hpol r hok
    have hinv := buildDocument_ok_nonarchive_inv env document documentOptions r html
      flaws0 hfolder hA hR hok
    have hinv2 := hinv.2
    rw [macroFlawPolicy_warn _ _ _ hne hpol, Except.ok.injEq] at hinv2
    rw [← hinv2]
    simp only [Option.getD_some]
    have hp : ∃ p ∈ ((documentSampleLoop env document html flaws0).1).enum,
        p.2 = f.updateFileInfo document.fileInfo := by
      have h2 : f.updateFileInfo document.fileInfo
          ∈ ((documentSampleLoop env document html flaws0).1).enum.map Prod.snd := by
        rw [List.enum_map_snd]
        exact hmem
      simpa using List.mem_map.1 h2
    obtain ⟨p, hpmem, hpf⟩ := hp
    exact ⟨beefUpFlaw document p, List.mem_map_of_mem _ hpmem, by rw [← hpf]; rfl⟩
  · intro hpol r hok
    have hinv := buildDocument_ok_nonarchive_inv env document documentOptions r html
      flaws0 hfolder hA hR hok
    have hinv2 := hinv.2
    rw [macroFlawPolicy_ignore _ _ _ hpol, Except.ok.injEq] at hinv2
    exact hinv2.symm

/-- Witness for claim C3: the concrete failing sample throws the whole
build under "error", appears inside `doc.flaws.macros` under "warn", and
is absent under "ignore". -/
theorem claim_C3_witness :
    (buildDocument envC2 sampleDocument {}).map (fun r => r.doc.flaws.macros.isSome)
      = Except.ok true
    ∧ (buildDocument envC3error sampleDocument {}).isOk = false
    ∧ (buildDocument envC3ignore sampleDocument {}).map (fun r => r.doc.flaws.macros)
      = Except.ok none := by
  refine ⟨?_, ?_, ?_⟩
  · obtain ⟨r, hr⟩ : ∃ r, buildDocument envC2 sampleDocument {} = Except.ok r := ⟨_, rfl⟩
    have h := claim_C3_theorem envC2 sampleDocument {} "<p>rendered</p>" []
      { id := "BadSample" } liveSampleFlaw rfl rfl rfl (by decide) rfl
    obtain ⟨mf, hmf, _⟩ := h.2.2.1 rfl r hr
    have hsome : r.doc.flaws.macros.isSome = true := by
      cases hmac : r.doc.flaws.macros with
      | none =>
        rw [hmac] at hmf
        simp at hmf
      | some l => rfl
    rw [hr]
    simp [Except.map, hsome]
  · have h := claim_C3_theorem envC3error sampleDocument {} "<p>rendered</p>" []
      { id := "BadSample" } liveSampleFlaw rfl rfl rfl (by decide) rfl
    rw [h.2.1 rfl]
    rfl
  · obtain ⟨r, hr⟩ : ∃ r, buildDocument envC3ignore sampleDocument {} = Except.ok r :=
      ⟨_, rfl⟩
    have h := claim_C3_theorem envC3ignore sampleDocument {} "<p>rendered</p>" []
      { id := "BadSample" } liveSampleFlaw rfl rfl rfl (by decide) rfl
    rw [hr]
    simp only [Except.map]
    rw [h.2.2.2 rfl r hr]

/-! ## Claim C1 -/

/-- Counterexample for claim C1: `buildDocument` stores the declared
sample id `SampleX` as the lowercased `samplex` (the original case is not
preserved in the LiveSample record), and a lookup differing only in case
from the declared id (`SAMPLEX`) does not resolve — it fails with the
not-found error. -/
theorem claim_C1_counterexample :
    (buildDocument envC1 sampleDocument {}).map (fun r => r.liveSamples.map LiveSample.id)
      = Except.ok ["samplex"]
    ∧ (["samplex"] : List String) ≠ ["SampleX"]
    ∧ buildLiveSamplePageFromURL envC1 "/en-US/docs/Test/_samples_/SAMPLEX"
      = Except.error
          { message := "No live-sample \"SAMPLEX\" found within /en-US/docs/Test" } := by
  refine ⟨rfl, by decide, rfl⟩

/-- Claim C1 as amended: every stored LiveSample id is the lowercased
declared id, `buildLiveSamplePageFromURL` resolves exactly the requests
whose sample id equals the lowercase form of a declared id (building that
sample), and any other id — in particular a nonexistent one — fails with
the not-found error. -/
theorem claim_C1_theorem (env : Env) (document : SourceDocument)
    (documentOptions : DocumentOptions) (r : BuildResult) (html : String)
    (flaws0 : List Flaw) (url documentURL sampleID : String)
    (hfolder : env.urlToFolderPath document.url = document.fileInfo.folder)
    (hA : document.isArchive = false)
    (hR : env.render document.url = Except.ok (html, flaws0))
    (h : buildDocument env document documentOptions = Except.ok r)
    (hsplit : splitOnString url "/_samples_/" = [documentURL, sampleID])
    (hfind : env.findByURL documentURL = some document) :
    r.liveSamples
      = (env.getLiveSampleIDs document.metadata.slug document.rawHTML).filterMap
          (fun s => match (env.buildLiveSamplePage document.url document.metadata.title
              html s).flaw with
            | some _ => none
            | none => some { id := strToLower s.id
                             html := (env.buildLiveSamplePage document.url
                               document.metadata.title html s).html })
    ∧ ((env.getLiveSampleIDs document.metadata.slug document.rawHTML).find?
          (fun sO => some (strToLower sO.id) == some sampleID) = none →
        buildLiveSamplePageFromURL env url
          = Except.error { message := "No live-sample \"" ++ sampleID
              ++ "\" found within " ++ documentURL })
    ∧ (∀ sO : SampleID,
        (env.getLiveSampleIDs document.metadata.slug document.rawHTML).find?
          (fun sO2 => some (strToLower sO2.id) == some sampleID) = some sO →
        (env.buildLiveSamplePage document.url document.metadata.title html sO).flaw
          = none →
        buildLiveSamplePageFromURL env url
          = Except.ok (env.buildLiveSamplePage document.url document.metadata.title
              html sO).html) := by
  have hinv := buildDocument_ok_nonarchive_inv env document documentOptions r html flaws0
    hfolder hA hR h
  have hspec := documentSampleLoop_spec env document html flaws0
  refine ⟨?_, ?_, ?_⟩
  · rw [hinv.1, hspec]
  · intro hnone
    simp only [buildLiveSamplePageFromURL]
    rw [hsplit]
    simp only [List.headD_cons, List.drop_succ_cons, List.drop_zero, List.head?_cons]
    rw [hfind]
    dsimp only
    rw [hnone]
    rfl
  · intro sO hfound hflaw
    simp only [buildLiveSamplePageFromURL]
    rw [hsplit]
    simp only [List.headD_cons, List.drop_succ_cons, List.drop_zero, List.head?_cons]
    rw [hfind]
    dsimp only
    rw [hfound]
    dsimp only
    rw [hR]
    dsimp only
    rw [hflaw]

/-- Witness for the amended claim C1: the declared id `SampleX` is stored
as `samplex`, the lowercase lookup `samplex` resolves to the sample page,
and the nonexistent id `nosuch` fails with the not-found error. -/
theorem claim_C1_witness :
    (buildDocument envC1 sampleDocument {}).map (fun r => r.liveSamples.map LiveSample.id)
      = Except.ok ["samplex"]
    ∧ buildLiveSamplePageFromURL envC1 "/en-US/docs/Test/_samples_/samplex"
      = Except.ok "<html>sample</html>"
    ∧ buildLiveSamplePageFromURL envC1 "/en-US/docs/Test/_samples_/nosuch"
      = Except.error
          { message := "No live-sample \"nosuch\" found within /en-US/docs/Test" } := by
  obtain ⟨r, hr⟩ : ∃ r, buildDocument envC1 sampleDocument {} = Except.ok r := ⟨_, rfl⟩
  have h1 := claim_C1_theorem envC1 sampleDocument {} r "<p>rendered</p>" []
    "/en-US/docs/Test/_samples_/samplex" "/en-US/docs/Test" "samplex"
    rfl rfl rfl hr (by rfl) rfl
  have h2 := claim_C1_theorem envC1 sampleDocument {} r "<p>rendered</p>" []
    "/en-US/docs/Test/_samples_/nosuch" "/en-US/docs/Test" "nosuch"
    rfl rfl rfl hr (by rfl) rfl
  refine ⟨?_, ?_, ?_⟩
  · rw [hr]
    simp only [Except.map]
    rw [h1.1]
    rfl
  · exact h1.2.2 { id := "SampleX" } (by rfl) rfl
  · exact h2.2.1 (by rfl)

end YariBuild
